import Mathlib

/-!
Shallow embedding of the data-flow core of the sales-analytics dashboard
(`src/App.jsx`): CSV row cleaning, facet filtering, the three aggregation
reducers (monthly, category, summary) and the vote state machine
(`handleVote` plus the auth-state listener), together with proofs of the
specification claims about them.

JavaScript values are modelled as follows: a possibly-absent CSV field is
`Option String` (with `none` for `undefined`); JS numbers arising from
`parseFloat` are `JsNum`, a rational together with a `nan` point, since
`parseFloat` returns `NaN` on strings without a numeric prefix and `NaN`
is absorbing under addition.
-/

namespace SalesApp

/-- Truthiness of a possibly-absent JS string: `undefined` and the empty
string are falsy, every other string is truthy. -/
def truthy : Option String → Bool
  | none => false
  | some s => s ≠ ""

/-- String interpolation of a possibly-absent JS string value:
interpolating `undefined` yields the text "undefined". -/
def jsToString : Option String → String
  | none => "undefined"
  | some s => s

/-- A JS number as produced by `parseFloat` and propagated through `+`:
either `NaN` or an actual (here: rational) number. -/
inductive JsNum where
  | nan : JsNum
  | num : ℚ → JsNum
deriving DecidableEq, Repr

/-- JS addition on numbers: `NaN` absorbs. -/
def JsNum.add : JsNum → JsNum → JsNum
  | .nan, _ => .nan
  | _, .nan => .nan
  | .num a, .num b => .num (a + b)

/-- Whether a JS number is falsy: `NaN` and `0` are falsy. -/
def JsNum.falsy : JsNum → Bool
  | .nan => true
  | .num q => q = 0

/-- Whether a JS number is an actual number (not `NaN`). -/
def JsNum.isNum : JsNum → Bool
  | .nan => false
  | .num _ => true

/-- Numeric value of a decimal digit character. -/
def digitVal (c : Char) : ℕ := c.toNat - 48

/-- Fold a list of decimal digit characters into a natural number. -/
def digitsToNat (ds : List Char) : ℕ :=
  ds.foldl (fun acc c => 10 * acc + digitVal c) 0

/-- Model of JS `parseFloat` on decimal strings: skip leading whitespace,
read an optional sign, then a decimal literal `digits[.digits]`; the rest
of the string is ignored. Returns `NaN` when no digit is found. Exponent
notation and the `Infinity` literal of the real `parseFloat` are not
modelled; no property proved here depends on them. -/
def parseFloat (s : String) : JsNum :=
  let cs := s.data.dropWhile (fun c => c = ' ' || c = '\t' || c = '\n' || c = '\r')
  let signAndRest : ℚ × List Char :=
    match cs with
    | '-' :: rest => (-1, rest)
    | '+' :: rest => (1, rest)
    | _ => (1, cs)
  let ip := signAndRest.2.takeWhile Char.isDigit
  let afterIp := signAndRest.2.dropWhile Char.isDigit
  let fp : List Char :=
    match afterIp with
    | '.' :: rest => rest.takeWhile Char.isDigit
    | _ => []
  if ip.isEmpty && fp.isEmpty then JsNum.nan
  else JsNum.num (signAndRest.1 *
    ((digitsToNat ip : ℚ) + (digitsToNat fp : ℚ) / (10 : ℚ) ^ fp.length))

/-- The pattern `parseFloat(field || 0)` used throughout the aggregations:
a missing or empty field falls back to the number `0`; otherwise the
string is handed to `parseFloat`. -/
def parseFloatOr0 (s : Option String) : JsNum :=
  match s with
  | none => JsNum.num 0
  | some s => if s = "" then JsNum.num 0 else parseFloat s

/-- Model of JS `parseInt` restricted to what the dashboard feeds it:
skip leading whitespace, optional sign ignored here (never produced by the
key format), then read leading decimal digits; `none` models the `NaN`
result when no digit is found. -/
def parseIntNat (s : String) : Option ℕ :=
  let cs := s.data.dropWhile (fun c => c = ' ' || c = '\t' || c = '\n' || c = '\r')
  let ds := cs.takeWhile Char.isDigit
  if ds.isEmpty then none else some (digitsToNat ds)

/-- JS `s.padStart(2, "0")`: left-pad with zeros to length two. -/
def padStart2 (s : String) : String :=
  String.mk (List.replicate (2 - s.length) '0') ++ s

/-- One raw CSV row as delivered by the header-driven parser: every field
is a possibly-absent string. Field names follow the CSV columns
(`YEAR`, `MONTH`, `ITEM TYPE`, `ITEM DESCRIPTION`, `SUPPLIER`,
`RETAIL SALES`, `WAREHOUSE SALES`). -/
structure Row where
  year : Option String
  month : Option String
  itemType : Option String
  itemDescription : Option String
  supplier : Option String
  retailSales : Option String
  warehouseSales : Option String
deriving DecidableEq, Repr

/-- The fixed five-value item-type enumeration (`ITEM_TYPES` in the code). -/
def ITEM_TYPES : List String := ["BEER", "WINE", "LIQUOR", "KEGS", "NON-ALCOHOL"]

/-- Membership test `ITEM_TYPES.includes(row["ITEM TYPE"])`: an absent
field is never a member. -/
def itemTypeMem : Option String → Bool
  | none => false
  | some t => ITEM_TYPES.contains t

/-- The row filter of the CSV-load callback: keep a row iff `YEAR`,
`MONTH` and `ITEM TYPE` are truthy and `ITEM TYPE` is one of the five
recognised values. -/
def cleanData (rows : List Row) : List Row :=
  rows.filter (fun row =>
    truthy row.year && truthy row.month && truthy row.itemType
      && itemTypeMem row.itemType)

/-- The three facet selections; each is a concrete string or the
sentinel "ALL". -/
structure Selection where
  selectedType : String
  selectedYear : String
  selectedSupplier : String
deriving DecidableEq, Repr

/-- The per-row test of `filteredData`: the early-return chain of strict
inequality checks against each non-"ALL" facet. -/
def rowPasses (sel : Selection) (row : Row) : Bool :=
  if sel.selectedType ≠ "ALL" ∧ row.itemType ≠ some sel.selectedType then false
  else if sel.selectedYear ≠ "ALL" ∧ row.year ≠ some sel.selectedYear then false
  else if sel.selectedSupplier ≠ "ALL" ∧ row.supplier ≠ some sel.selectedSupplier then
    false
  else true

/-- `filteredData`: filter the loaded rows by the active selection. -/
def filteredData (data : List Row) (sel : Selection) : List Row :=
  data.filter (rowPasses sel)

/-- Worded from the spec, for comparison with `rowPasses`: a record
matches iff every non-"ALL" facet agrees by exact string equality,
combined by logical AND. -/
def specMatches (sel : Selection) (row : Row) : Bool :=
  (sel.selectedType = "ALL" || row.itemType = some sel.selectedType)
    && (sel.selectedYear = "ALL" || row.year = some sel.selectedYear)
    && (sel.selectedSupplier = "ALL" || row.supplier = some sel.selectedSupplier)

/-! ## Aggregation engine -/

/-- One monthly bucket: the accumulator object created as
`aggregated[key] = ` retail `0`, warehouse `0`, count `0`. -/
structure Agg where
  retail : JsNum
  warehouse : JsNum
  count : ℕ
deriving DecidableEq, Repr

/-- The zero bucket. -/
def Agg.zero : Agg := { retail := JsNum.num 0, warehouse := JsNum.num 0, count := 0 }

/-- Accumulate one row into a bucket: the three `+=` statements of the
monthly reducer. -/
def Agg.bump (row : Row) (a : Agg) : Agg :=
  { retail := a.retail.add (parseFloatOr0 row.retailSales)
    warehouse := a.warehouse.add (parseFloatOr0 row.warehouseSales)
    count := a.count + 1 }

/-- The monthly grouping key: the template literal interpolating `YEAR`,
a dash, and `MONTH` left-padded with zeros to two digits. On a missing
`MONTH` the JS would throw before producing a key (`.padStart` on
`undefined`); the model substitutes the empty string, which is irrelevant
where the key is actually used because `cleanData` guarantees a truthy
`MONTH`. -/
def monthKey (row : Row) : String :=
  jsToString row.year ++ "-" ++ padStart2 (row.month.getD "")

/-- Lookup in an association list with string keys (insertion-ordered,
modelling a JS object with non-index keys). -/
def lookupA {α : Type} : List (String × α) → String → Option α
  | [], _ => none
  | p :: ps, k => if p.1 = k then some p.2 else lookupA ps k

/-- One step of the monthly reducer: create the bucket at the end of the
object when absent, then accumulate the row into it. -/
def insertRow (m : List (String × Agg)) (row : Row) : List (String × Agg) :=
  let k := monthKey row
  match lookupA m k with
  | some _ => m.map (fun p => if p.1 = k then (p.1, Agg.bump row p.2) else p)
  | none => m ++ [(k, Agg.bump row Agg.zero)]

/-- The `aggregated` object of `monthlyData` after the `forEach` pass. -/
def monthlyAgg (rows : List Row) : List (String × Agg) :=
  rows.foldl insertRow []

/-- The `sorted` entry array of `monthlyData`: the object entries sorted
by key. The code sorts with `localeCompare`; it is modelled by codepoint
order, with which it agrees on the digit-and-dash keys this component
produces. JS `sort` is stable, as is insertion sort; stability is
irrelevant here because keys are pairwise distinct. -/
def monthlySorted (rows : List Row) : List (String × Agg) :=
  (monthlyAgg rows).insertionSort (fun a b => a.1 ≤ b.1)

/-- The month-abbreviation array `MONTHS`. -/
def MONTHS : List String :=
  ["Jan", "Feb", "Mar", "Apr", "May", "Jun", "Jul", "Aug", "Sep", "Oct", "Nov", "Dec"]

/-- Split a character list at every dash, modelling JS `split("-")`. -/
def splitDash : List Char → List (List Char)
  | [] => [[]]
  | c :: cs =>
    if c = '-' then [] :: splitDash cs
    else
      match splitDash cs with
      | [] => [[c]]
      | p :: ps => (c :: p) :: ps

/-- The label of one sorted bucket: destructure `key.split("-")` into
year and month, then interpolate `MONTHS[parseInt(month) - 1]` and the
year. An out-of-range or unparsable index reads `undefined` from the
array, which interpolates as "undefined". -/
def bucketLabel (k : String) : String :=
  let parts := splitDash k.data
  let year := String.mk (parts.getD 0 [])
  let monthStr := String.mk (parts.getD 1 [])
  let ab : String :=
    match parseIntNat monthStr with
    | none => "undefined"
    | some n => MONTHS.getD (n - 1) "undefined"
  ab ++ " " ++ year

/-- The `labels` array of `monthlyData`. -/
def monthlyLabels (rows : List Row) : List String :=
  (monthlySorted rows).map (fun p => bucketLabel p.1)

/-- The `retail` array of `monthlyData`. -/
def monthlyRetail (rows : List Row) : List JsNum :=
  (monthlySorted rows).map (fun p => p.2.retail)

/-- The `warehouse` array of `monthlyData`. -/
def monthlyWarehouse (rows : List Row) : List JsNum :=
  (monthlySorted rows).map (fun p => p.2.warehouse)

/-- One step of the category reducer `typeData`. The guard
`if (!aggregated[type])` re-initialises the bucket not only when it is
absent but also when its current value is falsy (`0` or `NaN`); the
subsequent `+=` then adds the row total to the (possibly reset) bucket.
The key is the interpolated `ITEM TYPE` field. -/
def typeStep (m : List (String × JsNum)) (row : Row) : List (String × JsNum) :=
  let t := jsToString row.itemType
  let x := (parseFloatOr0 row.retailSales).add (parseFloatOr0 row.warehouseSales)
  match lookupA m t with
  | some v =>
    let base := if v.falsy then JsNum.num 0 else v
    m.map (fun p => if p.1 = t then (p.1, base.add x) else p)
  | none => m ++ [(t, (JsNum.num 0).add x)]

/-- The `aggregated` object of `typeData` after the `forEach` pass;
`labels` are its keys and `values` its values, in insertion order. -/
def typeAgg (rows : List Row) : List (String × JsNum) :=
  rows.foldl typeStep []

/-- The `values` array of `typeData`. -/
def typeValues (rows : List Row) : List JsNum :=
  (typeAgg rows).map (fun p => p.2)

/-- The `totalRetail` accumulator of `stats`. -/
def totalRetail (rows : List Row) : JsNum :=
  rows.foldl (fun acc row => acc.add (parseFloatOr0 row.retailSales)) (JsNum.num 0)

/-- The `totalWarehouse` accumulator of `stats`. -/
def totalWarehouse (rows : List Row) : JsNum :=
  rows.foldl (fun acc row => acc.add (parseFloatOr0 row.warehouseSales)) (JsNum.num 0)

/-- The total-sales value of `stats` before display formatting:
`totalRetail + totalWarehouse`. -/
def totalSales (rows : List Row) : JsNum :=
  (totalRetail rows).add (totalWarehouse rows)

/-! ## Vote tally -/

/-- The authenticated identity, reduced to its key field. -/
structure UserT where
  uid : String
deriving DecidableEq, Repr

/-- One stored `userVotes` document. -/
structure VoteRec where
  vote : String
  timestamp : ℕ
deriving DecidableEq, Repr

/-- The `votes/salesData` counter document. -/
structure Counter where
  support : ℤ
  against : ℤ
deriving DecidableEq, Repr

/-- The merge-write with atomic increment on the counter document: add
one to the field named by `voteType`; a `voteType` outside the two
tracked fields would merge an unrelated field and leaves both tracked
buckets unchanged. -/
def Counter.incr (c : Counter) (voteType : String) : Counter :=
  if voteType = "support" then { c with support := c.support + 1 }
  else if voteType = "against" then { c with against := c.against + 1 }
  else c

/-- The combined local and remote state the vote tally acts on: the
viewer's session user and local `userVote`, the `userVotes` collection
and the optional `votes/salesData` document. -/
structure AppState where
  user : Option UserT
  userVote : Option String
  userVotesColl : List (String × VoteRec)
  votesDoc : Option Counter
deriving DecidableEq, Repr

/-- Upsert into the `userVotes` collection: `setDoc` overwrites the
document at the key, or appends a new one. -/
def upsertVote (coll : List (String × VoteRec)) (k : String) (v : VoteRec) :
    List (String × VoteRec) :=
  if (lookupA coll k).isSome then
    coll.map (fun p => if p.1 = k then (p.1, v) else p)
  else coll ++ [(k, v)]

/-- The awaited remote operations of `handleVote`, in program order; a
failure scenario names the first one that throws (the `catch` then stops
the handler). -/
inductive VoteStep where
  | recordWrite
  | counterRead
  | counterWrite
deriving DecidableEq, Repr

/-- `handleVote(voteType)`: return immediately when there is no user or
the local `userVote` is truthy; otherwise write the vote record, read the
counter document, then either merge-increment the matching bucket or
create the document with the chosen bucket at 1 and the other at 0, and
finally set the local `userVote`. `failAt` names the first awaited
operation that throws, if any: the `catch` logs and leaves everything
after the failing operation undone. -/
def handleVote (failAt : Option VoteStep) (now : ℕ) (st : AppState)
    (voteType : String) : AppState :=
  match st.user with
  | none => st
  | some u =>
    if truthy st.userVote then st
    else if failAt = some VoteStep.recordWrite then st
    else
      let st1 := { st with
        userVotesColl := upsertVote st.userVotesColl u.uid
          { vote := voteType, timestamp := now } }
      if failAt = some VoteStep.counterRead then st1
      else
        let newDoc : Counter :=
          match st1.votesDoc with
          | some c => c.incr voteType
          | none =>
            { support := if voteType = "support" then 1 else 0
              against := if voteType = "against" then 1 else 0 }
        if failAt = some VoteStep.counterWrite then st1
        else { st1 with votesDoc := some newDoc, userVote := some voteType }

/-- The `onAuthStateChanged` callback: store the session user; when
authenticated, read the `userVotes` document for the new uid and set the
local `userVote` to its recorded vote only when the document exists; when
unauthenticated, reset the local `userVote` to `null`. -/
def authHandler (currentUser : Option UserT) (st : AppState) : AppState :=
  match currentUser with
  | none => { st with user := none, userVote := none }
  | some u =>
    match lookupA st.userVotesColl u.uid with
    | some r => { st with user := some u, userVote := some r.vote }
    | none => { st with user := some u }

/-- Total number of votes recorded in the shared counter; an absent
document counts as zero. -/
def counterTotal (st : AppState) : ℤ :=
  match st.votesDoc with
  | none => 0
  | some c => c.support + c.against

/-! ## Specification-side definitions and generic helpers -/

/-- The keys of an association list, in order. -/
def keysOf {α : Type} (m : List (String × α)) : List String :=
  m.map Prod.fst

/-- Left-to-right JS sum of a list of numbers, starting from `0`. -/
def sumValues (l : List JsNum) : JsNum :=
  l.foldl JsNum.add (JsNum.num 0)

/-- Rational shadow of a JS number; `NaN` is sent to `0` (only ever used
under a hypothesis excluding `NaN`). -/
def toQ : JsNum → ℚ
  | .nan => 0
  | .num q => q

/-- Worded from the spec, for comparison with the monthly reducer: the
bucket of key `k` holds the retail-sales sum, the warehouse-sales sum and
the record count of exactly the rows whose key is `k`. -/
def groupSpec (rows : List Row) (k : String) : Agg :=
  { retail := sumValues
      ((rows.filter fun r => monthKey r = k).map fun r => parseFloatOr0 r.retailSales)
    warehouse := sumValues
      ((rows.filter fun r => monthKey r = k).map fun r => parseFloatOr0 r.warehouseSales)
    count := (rows.filter fun r => monthKey r = k).length }

/-- Worded from the spec: the month-abbreviation mapping
1 to "Jan" through 12 to "Dec". -/
def monthAbbrevSpec : ℕ → String
  | 1 => "Jan"
  | 2 => "Feb"
  | 3 => "Mar"
  | 4 => "Apr"
  | 5 => "May"
  | 6 => "Jun"
  | 7 => "Jul"
  | 8 => "Aug"
  | 9 => "Sep"
  | 10 => "Oct"
  | 11 => "Nov"
  | 12 => "Dec"
  | _ => "undefined"

instance : IsTotal (String × Agg) (fun a b => a.1 ≤ b.1) :=
  ⟨fun a b => le_total a.1 b.1⟩

instance : IsTrans (String × Agg) (fun a b => a.1 ≤ b.1) :=
  ⟨fun _ _ _ h h2 => le_trans h h2⟩

/-! ## General lemmas -/

theorem JsNum.add_num_zero (x : JsNum) : x.add (JsNum.num 0) = x := by
  cases x <;> simp [JsNum.add]

theorem JsNum.num_zero_add (x : JsNum) : (JsNum.num 0).add x = x := by
  cases x <;> simp [JsNum.add]

theorem JsNum.isNum_add {x y : JsNum} (hx : x.isNum = true) (hy : y.isNum = true) :
    (x.add y).isNum = true := by
  cases x <;> cases y <;> simp_all [JsNum.add, JsNum.isNum]

theorem JsNum.toQ_add {x y : JsNum} (hx : x.isNum = true) (hy : y.isNum = true) :
    toQ (x.add y) = toQ x + toQ y := by
  cases x <;> cases y <;> simp_all [JsNum.add, JsNum.isNum, toQ]

theorem lookupA_append_left {α : Type} {m : List (String × α)} {k : String}
    {v : α} (l : List (String × α)) (h : lookupA m k = some v) :
    lookupA (m ++ l) k = some v := by
  induction m with
  | nil => simp [lookupA] at h
  | cons p ps ih =>
    by_cases hpk : p.1 = k <;> simp_all [lookupA]

theorem lookupA_append_right {α : Type} {m : List (String × α)} {k : String}
    (l : List (String × α)) (h : lookupA m k = none) :
    lookupA (m ++ l) k = lookupA l k := by
  induction m with
  | nil => simp
  | cons p ps ih =>
    by_cases hpk : p.1 = k <;> simp_all [lookupA]

theorem lookupA_map_update {α : Type} (m : List (String × α)) (k0 k : String)
    (f : α → α) :
    lookupA (m.map fun p => if p.1 = k0 then (p.1, f p.2) else p) k
      = if k = k0 then (lookupA m k).map f else lookupA m k := by
  induction m with
  | nil => by_cases h : k = k0 <;> simp [lookupA, h]
  | cons p ps ih =>
    by_cases hpk0 : p.1 = k0 <;> by_cases hpk : p.1 = k <;>
      by_cases hk : k = k0 <;> simp_all [lookupA]

theorem keysOf_map_update {α : Type} (m : List (String × α)) (k0 : String)
    (f : α → α) :
    keysOf (m.map fun p => if p.1 = k0 then (p.1, f p.2) else p) = keysOf m := by
  induction m with
  | nil => rfl
  | cons p ps ih =>
    by_cases hpk0 : p.1 = k0 <;> simp_all [keysOf]

theorem keysOf_append {α : Type} (m l : List (String × α)) :
    keysOf (m ++ l) = keysOf m ++ keysOf l := by
  simp [keysOf]

theorem lookupA_eq_none_iff {α : Type} (m : List (String × α)) (k : String) :
    lookupA m k = none ↔ k ∉ keysOf m := by
  induction m with
  | nil => simp [lookupA, keysOf]
  | cons p ps ih =>
    by_cases hpk : p.1 = k
    · simp [lookupA, hpk, keysOf]
    · have hkp : ¬k = p.1 := fun h => hpk h.symm
      rw [show lookupA (p :: ps) k = lookupA ps k from by simp [lookupA, hpk]]
      rw [ih]
      simp [keysOf, hkp]

theorem lookupA_mem {α : Type} {m : List (String × α)} {k : String} {v : α}
    (h : lookupA m k = some v) : (k, v) ∈ m := by
  induction m with
  | nil => simp [lookupA] at h
  | cons p ps ih =>
    by_cases hpk : p.1 = k
    · obtain ⟨a, b⟩ := p
      simp only at hpk
      subst hpk
      simp [lookupA] at h
      subst h
      exact List.mem_cons_self _ _
    · simp only [lookupA, if_neg hpk] at h
      exact List.mem_cons_of_mem _ (ih h)

theorem mem_iff_lookupA {α : Type} {m : List (String × α)} {k : String} {v : α}
    (hnd : (keysOf m).Nodup) : (k, v) ∈ m ↔ lookupA m k = some v := by
  induction m with
  | nil => simp [lookupA]
  | cons p ps ih =>
    simp only [keysOf, List.map_cons, List.nodup_cons] at hnd
    by_cases hpk : p.1 = k
    · subst hpk
      simp only [lookupA, if_pos rfl, List.mem_cons]
      constructor
      · rintro (h | h)
        · cases p; simp_all
        · exact absurd (List.mem_map_of_mem Prod.fst h) hnd.1
      · rintro h
        cases p
        simp_all
    · simp only [lookupA, if_neg hpk, List.mem_cons]
      rw [← ih hnd.2]
      constructor
      · rintro (h | h)
        · cases p; simp_all
        · exact h
      · exact Or.inr

theorem rowPasses_eq_specMatches (sel : Selection) (row : Row) :
    rowPasses sel row = specMatches sel row := by
  unfold rowPasses specMatches
  by_cases h1 : sel.selectedType = "ALL" <;>
    by_cases h2 : row.itemType = some sel.selectedType <;>
    by_cases h3 : sel.selectedYear = "ALL" <;>
    by_cases h4 : row.year = some sel.selectedYear <;>
    by_cases h5 : sel.selectedSupplier = "ALL" <;>
    by_cases h6 : row.supplier = some sel.selectedSupplier <;>
    simp [h1, h2, h3, h4, h5, h6]

theorem itemTypeMem_iff (t : Option String) :
    itemTypeMem t = true ↔
      (t = some "BEER" ∨ t = some "WINE" ∨ t = some "LIQUOR" ∨
        t = some "KEGS" ∨ t = some "NON-ALCOHOL") := by
  cases t with
  | none => simp [itemTypeMem]
  | some s => simp [itemTypeMem, ITEM_TYPES, List.contains_cons]

/-! ## Claims about the filter engine and the loader -/

/-- C1: for every record list and selection, the filter returns exactly
the records that match every non-"ALL" facet (item type, year, supplier
by exact string equality, combined by logical AND), in the original
relative order (the result is a sublist of the input). -/
theorem filter_returns_exactly_matching_records
    (data : List Row) (sel : Selection) :
    filteredData data sel = data.filter (specMatches sel)
      ∧ (filteredData data sel).Sublist data := by
  constructor
  · exact List.filter_congr fun r _ => rowPasses_eq_specMatches sel r
  · exact List.filter_sublist data

/-- C2: a row is retained by the load-time cleaning iff its `YEAR`,
`MONTH` and `ITEM TYPE` fields are present (truthy) and the item type is
one of the five recognised values; in particular a row whose item type is
"SODA" never appears in the cleaned set. Dropping is by `List.filter`, so
a failing row is silently removed and the load always succeeds. -/
theorem cleanData_retained_iff :
    (∀ (rows : List Row) (r : Row),
      r ∈ cleanData rows ↔
        r ∈ rows ∧ truthy r.year = true ∧ truthy r.month = true
          ∧ truthy r.itemType = true
          ∧ (r.itemType = some "BEER" ∨ r.itemType = some "WINE"
             ∨ r.itemType = some "LIQUOR" ∨ r.itemType = some "KEGS"
             ∨ r.itemType = some "NON-ALCOHOL"))
    ∧ (∀ (rows : List Row) (r : Row),
        r.itemType = some "SODA" → r ∉ cleanData rows) := by
  have hmem : ∀ (rows : List Row) (r : Row),
      r ∈ cleanData rows ↔
        r ∈ rows ∧ truthy r.year = true ∧ truthy r.month = true
          ∧ truthy r.itemType = true
          ∧ (r.itemType = some "BEER" ∨ r.itemType = some "WINE"
             ∨ r.itemType = some "LIQUOR" ∨ r.itemType = some "KEGS"
             ∨ r.itemType = some "NON-ALCOHOL") := by
    intro rows r
    rw [cleanData, List.mem_filter]
    simp only [Bool.and_eq_true, itemTypeMem_iff]
    tauto
  refine ⟨hmem, fun rows r hsoda hmem2 => ?_⟩
  rcases (hmem rows r).mp hmem2 with ⟨-, -, -, -, h5⟩
  rw [hsoda] at h5
  rcases h5 with h | h | h | h | h <;> exact absurd (Option.some.inj h) (by decide)

/-- C3 (corrected): a missing or empty sales field parses to the number
0 and therefore contributes nothing to the running retail and warehouse
totals; removing such a record from anywhere in the list leaves the
corresponding total unchanged. (The original claim also covered nonempty
non-numeric fields; those parse to `NaN`, which propagates — see the
counterexample.) -/
theorem missing_sales_fields_contribute_zero :
    (∀ s : Option String, (s = none ∨ s = some "") → parseFloatOr0 s = JsNum.num 0)
    ∧ (∀ (pre post : List Row) (r : Row),
        (r.retailSales = none ∨ r.retailSales = some "") →
        totalRetail (pre ++ r :: post) = totalRetail (pre ++ post))
    ∧ (∀ (pre post : List Row) (r : Row),
        (r.warehouseSales = none ∨ r.warehouseSales = some "") →
        totalWarehouse (pre ++ r :: post) = totalWarehouse (pre ++ post)) := by
  have hpf : ∀ s : Option String, (s = none ∨ s = some "") →
      parseFloatOr0 s = JsNum.num 0 := by
    rintro s (rfl | rfl) <;> simp [parseFloatOr0]
  refine ⟨hpf, fun pre post r h => ?_, fun pre post r h => ?_⟩
  · simp only [totalRetail, List.foldl_append, List.foldl_cons]
    rw [hpf _ h, JsNum.add_num_zero]
  · simp only [totalWarehouse, List.foldl_append, List.foldl_cons]
    rw [hpf _ h, JsNum.add_num_zero]

/-- C3, counterexample to the original claim: a retained record whose
`RETAIL SALES` field is the non-numeric string "abc" makes the retail
total `NaN` instead of contributing 0 — the parse failure is propagated
as a non-numeric total. -/
theorem nonNumeric_sales_field_poisons_total :
    totalRetail [{ year := some "2020", month := some "1",
                   itemType := some "BEER", itemDescription := none,
                   supplier := none, retailSales := some "abc",
                   warehouseSales := some "5" }] = JsNum.nan
      ∧ totalRetail [] = JsNum.num 0
      ∧ JsNum.nan ≠ JsNum.num 0 := by
  refine ⟨?_, rfl, by decide⟩
  decide

/-- Witness for the cleaning claim: on a concrete one-row list whose item
type is "SODA", the row is not retained. -/
theorem cleanData_retained_iff_witness :
    ({ year := some "2020", month := some "1", itemType := some "SODA",
       itemDescription := none, supplier := none, retailSales := none,
       warehouseSales := none } : Row) ∉
      cleanData [{ year := some "2020", month := some "1",
                   itemType := some "SODA", itemDescription := none,
                   supplier := none, retailSales := none,
                   warehouseSales := none }] :=
  cleanData_retained_iff.2 _ _ rfl

/-- Witness for the missing-field claim: deleting a concrete record with
an absent `RETAIL SALES` field from a concrete two-record list leaves the
retail total unchanged. -/
theorem missing_sales_fields_contribute_zero_witness :
    totalRetail
        [{ year := some "2020", month := some "1", itemType := some "BEER",
           itemDescription := none, supplier := none, retailSales := some "10",
           warehouseSales := some "5" },
         { year := some "2020", month := some "2", itemType := some "WINE",
           itemDescription := none, supplier := none, retailSales := none,
           warehouseSales := some "7" }]
      = totalRetail
        [{ year := some "2020", month := some "1", itemType := some "BEER",
           itemDescription := none, supplier := none, retailSales := some "10",
           warehouseSales := some "5" }] :=
  missing_sales_fields_contribute_zero.2.1
    [{ year := some "2020", month := some "1", itemType := some "BEER",
       itemDescription := none, supplier := none, retailSales := some "10",
       warehouseSales := some "5" }] [] _ (Or.inl rfl)

/-! ## Characterisation of the vote handler -/

theorem handleVote_blocked (failAt : Option VoteStep) (now : ℕ) (st : AppState)
    (vt : String) (h : truthy st.userVote = true) :
    handleVote failAt now st vt = st := by
  cases hu : st.user with
  | none => simp [handleVote, hu]
  | some u => simp [handleVote, hu, h]

theorem handleVote_success (now : ℕ) (st : AppState) (u : UserT) (vt : String)
    (hu : st.user = some u) (hv : st.userVote = none) :
    handleVote none now st vt =
      { st with
        userVote := some vt
        userVotesColl := upsertVote st.userVotesColl u.uid
          ({ vote := vt, timestamp := now })
        votesDoc := some (match st.votesDoc with
          | some c => c.incr vt
          | none =>
            { support := if vt = "support" then 1 else 0
              against := if vt = "against" then 1 else 0 }) } := by
  simp [handleVote, hu, hv, truthy]

theorem handleVote_fail_record (now : ℕ) (st : AppState) (u : UserT)
    (vt : String) (hu : st.user = some u) (hv : st.userVote = none) :
    handleVote (some VoteStep.recordWrite) now st vt = st := by
  simp [handleVote, hu, hv, truthy]

theorem handleVote_fail_after (step : VoteStep) (now : ℕ) (st : AppState)
    (u : UserT) (vt : String) (hstep : step ≠ VoteStep.recordWrite)
    (hu : st.user = some u) (hv : st.userVote = none) :
    handleVote (some step) now st vt =
      { st with
        userVotesColl := upsertVote st.userVotesColl u.uid
          ({ vote := vt, timestamp := now }) } := by
  cases step with
  | recordWrite => exact absurd rfl hstep
  | counterRead => simp [handleVote, hu, hv, truthy]
  | counterWrite => simp [handleVote, hu, hv, truthy]

/-! ## Claims about the vote tally -/

/-- C5: vote casting is idempotent per identity. A viewer whose local
vote is recorded (truthy) is blocked before any write, under every
failure scenario, so the Voted state is terminal; and two sequential
casts by the same identity from the NoVote state make the second call a
no-op and leave the shared counter incremented by exactly one in total. -/
theorem castVote_idempotent :
    (∀ (failAt : Option VoteStep) (now : ℕ) (st : AppState) (vt : String),
      truthy st.userVote = true → handleVote failAt now st vt = st)
    ∧ (∀ (now1 now2 : ℕ) (st : AppState) (u : UserT) (vt vt2 : String),
        st.user = some u → st.userVote = none →
        (vt = "support" ∨ vt = "against") →
        handleVote none now2 (handleVote none now1 st vt) vt2
            = handleVote none now1 st vt
          ∧ (handleVote none now1 st vt).userVote = some vt
          ∧ counterTotal (handleVote none now1 st vt) = counterTotal st + 1) := by
  refine ⟨handleVote_blocked, fun now1 now2 st u vt vt2 hu hv hvt => ?_⟩
  rw [handleVote_success now1 st u vt hu hv]
  have htruthy : truthy (some vt) = true := by
    rcases hvt with rfl | rfl <;> decide
  refine ⟨handleVote_blocked _ _ _ _ htruthy, rfl, ?_⟩
  cases hd : st.votesDoc with
  | none =>
    rcases hvt with rfl | rfl <;> simp [counterTotal, hd]
  | some c =>
    rcases hvt with rfl | rfl <;> simp [counterTotal, hd, Counter.incr] <;> ring

/-- Witness for the idempotence claim at a concrete state: a second
"support" cast changes nothing, the vote is recorded locally, and the
counter total went up by exactly one. -/
theorem castVote_idempotent_witness :
    handleVote none 2
        (handleVote none 1
          ({ user := some ({ uid := "u1" }), userVote := none,
             userVotesColl := [], votesDoc := none }) "support") "support"
      = handleVote none 1
          ({ user := some ({ uid := "u1" }), userVote := none,
             userVotesColl := [], votesDoc := none }) "support"
    ∧ (handleVote none 1
          ({ user := some ({ uid := "u1" }), userVote := none,
             userVotesColl := [], votesDoc := none }) "support").userVote
        = some "support"
    ∧ counterTotal (handleVote none 1
          ({ user := some ({ uid := "u1" }), userVote := none,
             userVotesColl := [], votesDoc := none }) "support")
        = counterTotal
          ({ user := some ({ uid := "u1" }), userVote := none,
             userVotesColl := [], votesDoc := none }) + 1 :=
  castVote_idempotent.2 1 2 _ ({ uid := "u1" }) "support" "support"
    rfl rfl (Or.inl rfl)

/-- C6: when any awaited remote operation of `handleVote` fails, the
local vote state stays NoVote (the cast is never presented as success),
the session user is untouched, and a later retry that succeeds records
the vote. -/
theorem voteFailure_keeps_novote :
    ∀ (step : VoteStep) (now now2 : ℕ) (st : AppState) (u : UserT)
      (vt vt2 : String), st.user = some u → st.userVote = none →
      (handleVote (some step) now st vt).userVote = none
        ∧ (handleVote (some step) now st vt).user = some u
        ∧ (handleVote none now2 (handleVote (some step) now st vt) vt2).userVote
            = some vt2 := by
  intro step now now2 st u vt vt2 hu hv
  have hafter : (handleVote (some step) now st vt).userVote = none
      ∧ (handleVote (some step) now st vt).user = some u := by
    cases step with
    | recordWrite =>
      rw [handleVote_fail_record now st u vt hu hv]
      exact ⟨hv, hu⟩
    | counterRead =>
      rw [handleVote_fail_after VoteStep.counterRead now st u vt (by decide) hu hv]
      exact ⟨hv, hu⟩
    | counterWrite =>
      rw [handleVote_fail_after VoteStep.counterWrite now st u vt (by decide) hu hv]
      exact ⟨hv, hu⟩
  refine ⟨hafter.1, hafter.2, ?_⟩
  rw [handleVote_success now2 _ u vt2 hafter.2 hafter.1]

/-- Witness for the failure claim at a concrete state, for a failing
counter write: the local vote stays unset and a retry succeeds. -/
theorem voteFailure_keeps_novote_witness :
    (handleVote (some VoteStep.counterWrite) 1
        ({ user := some ({ uid := "u2" }), userVote := none,
           userVotesColl := [], votesDoc := none }) "against").userVote = none
    ∧ (handleVote (some VoteStep.counterWrite) 1
        ({ user := some ({ uid := "u2" }), userVote := none,
           userVotesColl := [], votesDoc := none }) "against").user
        = some ({ uid := "u2" })
    ∧ (handleVote none 2
        (handleVote (some VoteStep.counterWrite) 1
          ({ user := some ({ uid := "u2" }), userVote := none,
             userVotesColl := [], votesDoc := none }) "against")
        "against").userVote = some "against" :=
  voteFailure_keeps_novote VoteStep.counterWrite 1 2 _ ({ uid := "u2" })
    "against" "against" rfl rfl

/-- C7: when the shared counter document does not exist, a first
"support" vote creates it with the support bucket at 1 and the against
bucket at 0 instead of incrementing a missing document. -/
theorem firstVote_initializes_counter :
    ∀ (now : ℕ) (st : AppState) (u : UserT),
      st.user = some u → st.userVote = none → st.votesDoc = none →
      (handleVote none now st "support").votesDoc
        = some ({ support := 1, against := 0 }) := by
  intro now st u hu hv hd
  rw [handleVote_success now st u "support" hu hv]
  simp [hd]

/-- Witness for the counter-initialisation claim at a concrete state. -/
theorem firstVote_initializes_counter_witness :
    (handleVote none 1
        ({ user := some ({ uid := "u3" }), userVote := none,
           userVotesColl := [], votesDoc := none }) "support").votesDoc
      = some ({ support := 1, against := 0 }) :=
  firstVote_initializes_counter 1 _ ({ uid := "u3" }) rfl rfl rfl

/-- C10 (corrected): the auth-state listener resets the local vote state
to null whenever the session becomes unauthenticated, and on sign-in it
reads the stored vote record keyed by the new uid, adopting its vote when
the record exists; when no record exists it leaves the previous local
vote state unchanged rather than resetting it. -/
theorem authHandler_resolution :
    (∀ st : AppState,
      (authHandler none st).userVote = none ∧ (authHandler none st).user = none)
    ∧ (∀ (st : AppState) (u : UserT) (r : VoteRec),
        lookupA st.userVotesColl u.uid = some r →
        (authHandler (some u) st).userVote = some r.vote
          ∧ (authHandler (some u) st).user = some u)
    ∧ (∀ (st : AppState) (u : UserT),
        lookupA st.userVotesColl u.uid = none →
        (authHandler (some u) st).userVote = st.userVote
          ∧ (authHandler (some u) st).user = some u) := by
  refine ⟨fun st => ⟨rfl, rfl⟩, fun st u r h => ?_, fun st u h => ?_⟩
  · simp only [authHandler]
    rw [h]
    exact ⟨rfl, rfl⟩
  · simp only [authHandler]
    rw [h]
    exact ⟨rfl, rfl⟩

/-- Witness for the auth-resolution claim: a concrete store in which the
signed-in uid has a recorded "against" vote resolves to that vote. -/
theorem authHandler_resolution_witness :
    (authHandler (some ({ uid := "A" }))
        ({ user := none, userVote := none,
           userVotesColl := [("A", { vote := "against", timestamp := 3 })],
           votesDoc := none })).userVote = some "against"
    ∧ (authHandler (some ({ uid := "A" }))
        ({ user := none, userVote := none,
           userVotesColl := [("A", { vote := "against", timestamp := 3 })],
           votesDoc := none })).user = some ({ uid := "A" }) :=
  authHandler_resolution.2.1 _ ({ uid := "A" })
    ({ vote := "against", timestamp := 3 }) rfl

/-- C10, counterexample to the original claim: after signing in as "A"
(who has a recorded vote) and then directly as "B" (who has none), the
local vote state still shows the vote of "A" — the single-vote gate is
carried over to the new identity instead of being re-resolved to NoVote
for "B". -/
theorem authHandler_carries_over_state :
    (authHandler (some ({ uid := "B" }))
        (authHandler (some ({ uid := "A" }))
          ({ user := none, userVote := none,
             userVotesColl := [("A", { vote := "support", timestamp := 0 })],
             votesDoc := none }))).userVote = some "support"
    ∧ lookupA [("A", ({ vote := "support", timestamp := 0 } : VoteRec))] "B"
        = none
    ∧ some "support" ≠ (none : Option String) :=
  ⟨rfl, rfl, by decide⟩

/-! ## Loader invariant claim -/

/-- C8 (corrected): every record retained by the loader has truthy
(present, nonempty) `YEAR` and `MONTH` fields and an item type among the
fixed five values. The loader checks nothing else: the month range and
the sales-field values of the original claim are not validated — see the
counterexample. -/
theorem retained_record_invariants :
    ∀ (rows : List Row) (r : Row), r ∈ cleanData rows →
      truthy r.year = true ∧ truthy r.month = true
        ∧ ∃ t, r.itemType = some t ∧ t ∈ ITEM_TYPES := by
  intro rows r hr
  rw [cleanData, List.mem_filter] at hr
  simp only [Bool.and_eq_true] at hr
  obtain ⟨-, ⟨⟨hy, hm⟩, -⟩, hmem⟩ := hr
  refine ⟨hy, hm, ?_⟩
  cases ht : r.itemType with
  | none => rw [ht] at hmem; exact absurd hmem (by decide)
  | some t =>
    rw [ht] at hmem
    exact ⟨t, rfl, by
      have := (itemTypeMem_iff (some t)).mp hmem
      simp only [Option.some.injEq] at this
      rcases this with rfl | rfl | rfl | rfl | rfl <;> decide⟩

/-- Witness for the loader invariant at a concrete retained record. -/
theorem retained_record_invariants_witness :
    truthy (({ year := some "2021", month := some "3",
               itemType := some "KEGS", itemDescription := none,
               supplier := none, retailSales := some "2",
               warehouseSales := some "4" } : Row)).year = true
    ∧ truthy (({ year := some "2021", month := some "3",
                 itemType := some "KEGS", itemDescription := none,
                 supplier := none, retailSales := some "2",
                 warehouseSales := some "4" } : Row)).month = true
    ∧ ∃ t, (({ year := some "2021", month := some "3",
               itemType := some "KEGS", itemDescription := none,
               supplier := none, retailSales := some "2",
               warehouseSales := some "4" } : Row)).itemType = some t
        ∧ t ∈ ITEM_TYPES :=
  retained_record_invariants
    [{ year := some "2021", month := some "3", itemType := some "KEGS",
       itemDescription := none, supplier := none, retailSales := some "2",
       warehouseSales := some "4" }] _ (by decide)

/-- C8, counterexample to the original claim: a row with `MONTH` "13" and
`RETAIL SALES` "-5" is retained by the loader even though its month is
outside 1..12 and its retail-sales value parses to a negative number —
the loader enforces neither the month range nor nonnegative numeric sales
fields of the claimed data model. -/
theorem loader_skips_range_and_sign_checks :
    ({ year := some "2020", month := some "13", itemType := some "BEER",
       itemDescription := none, supplier := none, retailSales := some "-5",
       warehouseSales := none } : Row) ∈
      cleanData [{ year := some "2020", month := some "13",
                   itemType := some "BEER", itemDescription := none,
                   supplier := none, retailSales := some "-5",
                   warehouseSales := none }]
    ∧ parseIntNat "13" = some 13 ∧ ¬(13 : ℕ) ≤ 12
    ∧ parseFloat "-5" = JsNum.num (-5) ∧ (-5 : ℚ) < 0 := by
  refine ⟨by decide, by decide, by decide, ?_, by norm_num⟩
  simp [parseFloat, List.dropWhile, List.takeWhile, digitsToNat, digitVal]

/-! ## Category aggregate versus summary totals -/

theorem map_update_of_not_mem {α : Type} {m : List (String × α)} {k : String}
    (f : α → α) (h : k ∉ keysOf m) :
    (m.map fun p => if p.1 = k then (p.1, f p.2) else p) = m := by
  induction m with
  | nil => rfl
  | cons p ps ih =>
    simp only [keysOf, List.map_cons, List.mem_cons] at h
    push_neg at h
    simp only [List.map_cons, if_neg (fun hpk : p.1 = k => h.1 hpk.symm)]
    rw [ih (by simpa [keysOf] using h.2)]

theorem sum_map_addQ (l : List Row) (f g : Row → ℚ) :
    (l.map fun r => f r + g r).sum = (l.map f).sum + (l.map g).sum := by
  induction l with
  | nil => simp
  | cons r rs ih => simp [ih]; ring

theorem foldl_add_num (l : List JsNum) (a : ℚ) (h : ∀ x ∈ l, x.isNum = true) :
    l.foldl JsNum.add (JsNum.num a) = JsNum.num (a + (l.map toQ).sum) := by
  induction l generalizing a with
  | nil => simp
  | cons x xs ih =>
    cases x with
    | nan => exact absurd (h _ (List.mem_cons_self _ _)) (by decide)
    | num q =>
      simp only [List.foldl_cons, JsNum.add, List.map_cons, List.sum_cons, toQ]
      rw [ih (a + q) (fun y hy => h y (List.mem_cons_of_mem _ hy))]
      ring_nf

theorem sumValues_eq_num_sum (l : List JsNum) (h : ∀ x ∈ l, x.isNum = true) :
    sumValues l = JsNum.num ((l.map toQ).sum) := by
  rw [sumValues, foldl_add_num l 0 h, zero_add]

theorem totalRetail_eq_sumValues (rows : List Row) :
    totalRetail rows = sumValues (rows.map fun r => parseFloatOr0 r.retailSales) := by
  simp [totalRetail, sumValues, List.foldl_map]

theorem totalWarehouse_eq_sumValues (rows : List Row) :
    totalWarehouse rows
      = sumValues (rows.map fun r => parseFloatOr0 r.warehouseSales) := by
  simp [totalWarehouse, sumValues, List.foldl_map]

theorem entriesSumQ_update (m : List (String × JsNum)) (k : String) (v : JsNum)
    (hnd : (keysOf m).Nodup) (h : lookupA m k = some v) (w : JsNum) :
    ((m.map fun p => if p.1 = k then (p.1, w) else p).map fun p => toQ p.2).sum
      = (m.map fun p => toQ p.2).sum + toQ w - toQ v := by
  induction m with
  | nil => simp [lookupA] at h
  | cons q qs ih =>
    simp only [keysOf, List.map_cons, List.nodup_cons] at hnd
    by_cases hqk : q.1 = k
    · simp only [lookupA, if_pos hqk, Option.some.injEq] at h
      subst h
      have hnotin : k ∉ keysOf qs := by
        rw [← hqk]
        simpa [keysOf] using hnd.1
      simp only [List.map_cons, if_pos hqk]
      rw [map_update_of_not_mem (fun _ => w) hnotin]
      simp only [List.map_cons, List.sum_cons]
      ring
    · simp only [lookupA, if_neg hqk] at h
      simp only [List.map_cons, if_neg hqk, List.sum_cons]
      rw [ih hnd.2 h]
      ring

theorem typeStep_props (m : List (String × JsNum)) (row : Row)
    (hnd : (keysOf m).Nodup)
    (hm : ∀ p ∈ m, (p : String × JsNum).2.isNum = true)
    (hr : (parseFloatOr0 row.retailSales).isNum = true)
    (hw : (parseFloatOr0 row.warehouseSales).isNum = true) :
    (keysOf (typeStep m row)).Nodup
      ∧ (∀ p ∈ typeStep m row, (p : String × JsNum).2.isNum = true)
      ∧ ((typeStep m row).map fun p => toQ p.2).sum
          = (m.map fun p => toQ p.2).sum
            + (toQ (parseFloatOr0 row.retailSales)
               + toQ (parseFloatOr0 row.warehouseSales)) := by
  have hx : ((parseFloatOr0 row.retailSales).add
      (parseFloatOr0 row.warehouseSales)).isNum = true := JsNum.isNum_add hr hw
  have hxq : toQ ((parseFloatOr0 row.retailSales).add
        (parseFloatOr0 row.warehouseSales))
      = toQ (parseFloatOr0 row.retailSales)
        + toQ (parseFloatOr0 row.warehouseSales) := JsNum.toQ_add hr hw
  cases hl : lookupA m (jsToString row.itemType) with
  | none =>
    have hstep : typeStep m row
        = m ++ [(jsToString row.itemType,
            (JsNum.num 0).add ((parseFloatOr0 row.retailSales).add
              (parseFloatOr0 row.warehouseSales)))] := by
      simp [typeStep, hl]
    rw [hstep]
    refine ⟨?_, ?_, ?_⟩
    · rw [keysOf_append]
      rw [List.nodup_append]
      refine ⟨hnd, List.nodup_singleton _, ?_⟩
      intro a ha hb
      simp only [keysOf, List.map_cons, List.map_nil, List.mem_singleton] at hb
      subst hb
      exact ((lookupA_eq_none_iff m _).mp hl) ha
    · intro p hp
      rcases List.mem_append.mp hp with hp | hp
      · exact hm p hp
      · simp only [List.mem_singleton] at hp
        subst hp
        rw [JsNum.num_zero_add]
        exact hx
    · simp only [List.map_append, List.sum_append, List.map_cons, List.map_nil,
        List.sum_cons, List.sum_nil]
      rw [JsNum.num_zero_add, hxq]
      ring
  | some v =>
    have hvnum : v.isNum = true := hm _ (lookupA_mem hl)
    have hbase : toQ (if v.falsy then JsNum.num 0 else v) = toQ v := by
      cases v with
      | nan => exact absurd hvnum (by decide)
      | num q =>
        by_cases hq : q = 0
        · subst hq; simp [JsNum.falsy, toQ]
        · simp [JsNum.falsy, hq]
    have hbasenum : (if v.falsy then JsNum.num 0 else v).isNum = true := by
      cases v with
      | nan => exact absurd hvnum (by decide)
      | num q => by_cases hq : q = 0 <;> simp [JsNum.falsy, hq, JsNum.isNum]
    have hstep : typeStep m row
        = m.map fun p => if p.1 = jsToString row.itemType then
            (p.1, (if v.falsy then JsNum.num 0 else v).add
              ((parseFloatOr0 row.retailSales).add
                (parseFloatOr0 row.warehouseSales))) else p := by
      simp [typeStep, hl]
    rw [hstep]
    refine ⟨?_, ?_, ?_⟩
    · have := keysOf_map_update m (jsToString row.itemType)
        (fun _ => (if v.falsy then JsNum.num 0 else v).add
          ((parseFloatOr0 row.retailSales).add (parseFloatOr0 row.warehouseSales)))
      rw [this]
      exact hnd
    · intro p hp
      rcases List.mem_map.mp hp with ⟨q, hq, rfl⟩
      by_cases hqk : q.1 = jsToString row.itemType
      · simp only [if_pos hqk]
        exact JsNum.isNum_add hbasenum hx
      · simp only [if_neg hqk]
        exact hm q hq
    · rw [entriesSumQ_update m _ v hnd hl]
      rw [JsNum.toQ_add hbasenum hx, hbase, hxq]
      ring

theorem foldl_typeStep_props (rows : List Row) :
    ∀ (m : List (String × JsNum)), (keysOf m).Nodup →
      (∀ p ∈ m, (p : String × JsNum).2.isNum = true) →
      (∀ r ∈ rows, (parseFloatOr0 r.retailSales).isNum = true
        ∧ (parseFloatOr0 r.warehouseSales).isNum = true) →
      (keysOf (rows.foldl typeStep m)).Nodup
        ∧ (∀ p ∈ rows.foldl typeStep m, (p : String × JsNum).2.isNum = true)
        ∧ ((rows.foldl typeStep m).map fun p => toQ p.2).sum
            = (m.map fun p => toQ p.2).sum
              + (rows.map fun r => toQ (parseFloatOr0 r.retailSales)
                  + toQ (parseFloatOr0 r.warehouseSales)).sum := by
  induction rows with
  | nil => intro m hnd hm _; exact ⟨hnd, hm, by simp⟩
  | cons r rs ih =>
    intro m hnd hm hrows
    have hr := hrows r (List.mem_cons_self _ _)
    obtain ⟨hnd1, hm1, hsum1⟩ := typeStep_props m r hnd hm hr.1 hr.2
    obtain ⟨hnd2, hm2, hsum2⟩ := ih (typeStep m r) hnd1 hm1
      (fun x hx => hrows x (List.mem_cons_of_mem _ hx))
    refine ⟨hnd2, hm2, ?_⟩
    simp only [List.foldl_cons] at hsum2 ⊢
    rw [hsum2, hsum1]
    simp only [List.map_cons, List.sum_cons]
    ring

/-- C9 (corrected): when every record's two sales fields parse to actual
numbers, the sum of the category aggregate's values equals the summary
reducer's total sales. (The original unconditional claim fails when a
field parses to `NaN`: the category reducer's falsy guard then resets the
poisoned bucket on the next record of the same type, while the summary
totals stay `NaN` — see the counterexample.) -/
theorem category_sum_eq_total_sales (rows : List Row)
    (h : ∀ r ∈ rows, (parseFloatOr0 r.retailSales).isNum = true
      ∧ (parseFloatOr0 r.warehouseSales).isNum = true) :
    sumValues (typeValues rows) = totalSales rows := by
  obtain ⟨hnd, hall, hsum⟩ := foldl_typeStep_props rows []
    (by simp [keysOf]) (by simp) h
  have hv : ∀ x ∈ typeValues rows, x.isNum = true := by
    intro x hx
    rw [typeValues] at hx
    obtain ⟨p, hp, rfl⟩ := List.mem_map.mp hx
    exact hall p hp
  have hretail : ∀ x ∈ rows.map fun r => parseFloatOr0 r.retailSales,
      x.isNum = true := by
    intro x hx
    obtain ⟨r, hr, rfl⟩ := List.mem_map.mp hx
    exact (h r hr).1
  have hware : ∀ x ∈ rows.map fun r => parseFloatOr0 r.warehouseSales,
      x.isNum = true := by
    intro x hx
    obtain ⟨r, hr, rfl⟩ := List.mem_map.mp hx
    exact (h r hr).2
  rw [sumValues_eq_num_sum _ hv, totalSales, totalRetail_eq_sumValues,
    totalWarehouse_eq_sumValues, sumValues_eq_num_sum _ hretail,
    sumValues_eq_num_sum _ hware]
  have hmaps : (typeValues rows).map toQ
      = (typeAgg rows).map fun p => toQ p.2 := by
    simp [typeValues, List.map_map]
  rw [hmaps]
  simp only [JsNum.add, JsNum.num.injEq]
  rw [typeAgg, hsum]
  simp only [List.map_nil, List.sum_nil, List.map_map, zero_add]
  rw [sum_map_addQ rows (fun r => toQ (parseFloatOr0 r.retailSales))
    (fun r => toQ (parseFloatOr0 r.warehouseSales))]
  rfl

/-- Witness for the category-sum claim at a concrete all-numeric list. -/
theorem category_sum_eq_total_sales_witness :
    sumValues (typeValues
      [{ year := some "2020", month := some "1", itemType := some "BEER",
         itemDescription := none, supplier := none, retailSales := some "10",
         warehouseSales := some "5" },
       { year := some "2020", month := some "1", itemType := some "WINE",
         itemDescription := none, supplier := none, retailSales := some "20",
         warehouseSales := some "0" }])
      = totalSales
      [{ year := some "2020", month := some "1", itemType := some "BEER",
         itemDescription := none, supplier := none, retailSales := some "10",
         warehouseSales := some "5" },
       { year := some "2020", month := some "1", itemType := some "WINE",
         itemDescription := none, supplier := none, retailSales := some "20",
         warehouseSales := some "0" }] :=
  category_sum_eq_total_sales _ (by
    intro r hr
    simp only [List.mem_cons, List.not_mem_nil, or_false] at hr
    rcases hr with rfl | rfl <;>
      constructor <;>
        simp [parseFloatOr0, parseFloat, List.dropWhile, List.takeWhile,
          digitsToNat, digitVal, JsNum.isNum])

/-- C9, counterexample to the original claim: with a first BEER record
whose `RETAIL SALES` is "abc" (`NaN`) and a second numeric BEER record,
the category aggregate's falsy guard resets the poisoned bucket, so the
category values sum to 15 while the summary total sales is `NaN`. -/
theorem category_sum_mismatch_on_nan :
    sumValues (typeValues
      [{ year := some "2019", month := some "12", itemType := some "BEER",
         itemDescription := none, supplier := none, retailSales := some "abc",
         warehouseSales := some "1" },
       { year := some "2020", month := some "1", itemType := some "BEER",
         itemDescription := none, supplier := none, retailSales := some "10",
         warehouseSales := some "5" }]) = JsNum.num 15
    ∧ totalSales
      [{ year := some "2019", month := some "12", itemType := some "BEER",
         itemDescription := none, supplier := none, retailSales := some "abc",
         warehouseSales := some "1" },
       { year := some "2020", month := some "1", itemType := some "BEER",
         itemDescription := none, supplier := none, retailSales := some "10",
         warehouseSales := some "5" }] = JsNum.nan
    ∧ JsNum.num 15 ≠ JsNum.nan := by
  refine ⟨?_, ?_, by decide⟩
  · simp [sumValues, typeValues, typeAgg, typeStep, parseFloatOr0, parseFloat,
      List.dropWhile, List.takeWhile, digitsToNat, digitVal, lookupA, jsToString,
      JsNum.add, JsNum.falsy]
    norm_num
  · simp [totalSales, totalRetail, totalWarehouse, parseFloatOr0, parseFloat,
      List.dropWhile, List.takeWhile, digitsToNat, digitVal, JsNum.add]

/-! ## Monthly aggregation: grouping invariant -/

theorem lookupA_insertRow (m : List (String × Agg)) (row : Row) (k : String) :
    lookupA (insertRow m row) k =
      if k = monthKey row then
        some (Agg.bump row ((lookupA m (monthKey row)).getD Agg.zero))
      else lookupA m k := by
  cases hl : lookupA m (monthKey row) with
  | some a =>
    have hstep : insertRow m row
        = m.map fun p => if p.1 = monthKey row then (p.1, Agg.bump row p.2) else p := by
      simp [insertRow, hl]
    rw [hstep, lookupA_map_update]
    by_cases hk : k = monthKey row
    · subst hk
      simp [hl]
    · simp [hk]
  | none =>
    have hstep : insertRow m row
        = m ++ [(monthKey row, Agg.bump row Agg.zero)] := by
      simp [insertRow, hl]
    rw [hstep]
    by_cases hk : k = monthKey row
    · subst hk
      rw [lookupA_append_right _ hl]
      simp [lookupA, hl]
    · cases hmk : lookupA m k with
      | some v => rw [lookupA_append_left _ hmk, if_neg hk]
      | none =>
        rw [lookupA_append_right _ hmk, if_neg hk]
        have hne : ¬monthKey row = k := fun h => hk h.symm
        simp [lookupA, hne]

theorem keysOf_insertRow_nodup (m : List (String × Agg)) (row : Row)
    (hnd : (keysOf m).Nodup) : (keysOf (insertRow m row)).Nodup := by
  cases hl : lookupA m (monthKey row) with
  | some a =>
    have hstep : insertRow m row
        = m.map fun p => if p.1 = monthKey row then (p.1, Agg.bump row p.2) else p := by
      simp [insertRow, hl]
    rw [hstep, keysOf_map_update]
    exact hnd
  | none =>
    have hstep : insertRow m row
        = m ++ [(monthKey row, Agg.bump row Agg.zero)] := by
      simp [insertRow, hl]
    rw [hstep, keysOf_append, List.nodup_append]
    refine ⟨hnd, List.nodup_singleton _, ?_⟩
    intro a ha hb
    simp only [keysOf, List.map_cons, List.map_nil, List.mem_singleton] at hb
    subst hb
    exact ((lookupA_eq_none_iff m _).mp hl) ha

theorem monthlyAgg_keys_nodup (rows : List Row) :
    (keysOf (monthlyAgg rows)).Nodup := by
  rw [monthlyAgg]
  have : ∀ (m : List (String × Agg)), (keysOf m).Nodup →
      (keysOf (rows.foldl insertRow m)).Nodup := by
    induction rows with
    | nil => intro m h; exact h
    | cons r rs ih =>
      intro m h
      exact ih _ (keysOf_insertRow_nodup m r h)
  exact this [] (by simp [keysOf])

theorem foldl_insertRow_lookup (rows : List Row) :
    ∀ (m : List (String × Agg)) (k : String),
      lookupA (rows.foldl insertRow m) k =
        if lookupA m k = none ∧ (rows.filter fun r => monthKey r = k) = [] then
          none
        else
          some ((rows.filter fun r => monthKey r = k).foldl
            (fun a r => Agg.bump r a) ((lookupA m k).getD Agg.zero)) := by
  induction rows with
  | nil =>
    intro m k
    cases hl : lookupA m k with
    | none => simp [hl]
    | some a => simp [hl]
  | cons r rs ih =>
    intro m k
    simp only [List.foldl_cons]
    rw [ih (insertRow m r) k]
    by_cases hk : monthKey r = k
    · have hlk : lookupA (insertRow m r) k
          = some (Agg.bump r ((lookupA m (monthKey r)).getD Agg.zero)) := by
        rw [lookupA_insertRow, if_pos hk.symm]
      rw [hlk]
      have hfilter : (List.filter (fun r => decide (monthKey r = k)) (r :: rs))
          = r :: List.filter (fun r => decide (monthKey r = k)) rs := by
        simp [List.filter_cons, hk]
      simp only [hfilter, hk]
      have hcond : ¬(lookupA m k = none
          ∧ r :: List.filter (fun r => decide (monthKey r = k)) rs = []) := by
        rintro ⟨-, habs⟩
        exact List.cons_ne_nil _ _ habs
      rw [if_neg hcond]
      simp only [Option.getD_some, List.foldl_cons]
      simp
    · have hlk : lookupA (insertRow m r) k = lookupA m k := by
        rw [lookupA_insertRow, if_neg (fun h => hk h.symm)]
      have hfilter : (List.filter (fun r => decide (monthKey r = k)) (r :: rs))
          = List.filter (fun r => decide (monthKey r = k)) rs := by
        simp [List.filter_cons, hk]
      rw [hlk, hfilter]

theorem foldl_bump_components (l : List Row) (a : Agg) :
    l.foldl (fun a r => Agg.bump r a) a =
      { retail := l.foldl (fun x r => x.add (parseFloatOr0 r.retailSales)) a.retail
        warehouse :=
          l.foldl (fun x r => x.add (parseFloatOr0 r.warehouseSales)) a.warehouse
        count := a.count + l.length } := by
  induction l generalizing a with
  | nil => simp
  | cons r rs ih =>
    simp only [List.foldl_cons]
    rw [ih]
    simp only [Agg.bump, List.length_cons]
    congr 1
    omega

theorem foldl_bump_eq_groupSpec (rows : List Row) (k : String) :
    (rows.filter fun r => monthKey r = k).foldl (fun a r => Agg.bump r a) Agg.zero
      = groupSpec rows k := by
  rw [foldl_bump_components]
  simp only [groupSpec, Agg.zero, sumValues, List.foldl_map, Nat.zero_add]

theorem monthlySorted_mem_iff (rows : List Row) (k : String) (a : Agg) :
    (k, a) ∈ monthlySorted rows ↔
      ((∃ r ∈ rows, monthKey r = k) ∧ a = groupSpec rows k) := by
  rw [monthlySorted, (List.perm_insertionSort _ _).mem_iff,
    mem_iff_lookupA (monthlyAgg_keys_nodup rows), monthlyAgg,
    foldl_insertRow_lookup rows [] k]
  by_cases hex : (rows.filter fun r => monthKey r = k) = []
  · have hnone : ∀ r ∈ rows, ¬monthKey r = k := by
      intro r hr hkr
      have hmem : r ∈ rows.filter fun r => monthKey r = k :=
        List.mem_filter.mpr ⟨hr, by simp [hkr]⟩
      rw [hex] at hmem
      exact absurd hmem (List.not_mem_nil r)
    rw [if_pos ⟨rfl, hex⟩]
    simp only [reduceCtorEq, false_iff, not_and]
    intro ⟨r, hr, hkr⟩
    exact absurd hkr (hnone r hr)
  · rw [if_neg (fun h => hex h.2)]
    have hexists : ∃ r ∈ rows, monthKey r = k := by
      obtain ⟨r, hr⟩ := List.exists_mem_of_ne_nil _ hex
      have := List.mem_filter.mp hr
      exact ⟨r, this.1, by simpa using this.2⟩
    simp only [lookupA, Option.getD_none, foldl_bump_eq_groupSpec,
      Option.some.injEq, hexists, true_and]
    exact eq_comm

/-! ## Monthly aggregation: labels -/

theorem dropWhile_of_forall_false {p : Char → Bool} {l : List Char}
    (h : ∀ c ∈ l, p c = false) : l.dropWhile p = l := by
  cases l with
  | nil => rfl
  | cons c cs =>
    rw [List.dropWhile_cons, h c (List.mem_cons_self _ _)]
    simp

theorem takeWhile_of_forall_true {p : Char → Bool} {l : List Char}
    (h : ∀ c ∈ l, p c = true) : l.takeWhile p = l := by
  induction l with
  | nil => rfl
  | cons c cs ih =>
    rw [List.takeWhile_cons, h c (List.mem_cons_self _ _)]
    simp only [if_true]
    rw [ih fun x hx => h x (List.mem_cons_of_mem _ hx)]

theorem digitsToNat_replicate_zeros (n : ℕ) (ds : List Char) :
    digitsToNat (List.replicate n '0' ++ ds) = digitsToNat ds := by
  induction n with
  | zero => simp
  | succ n ih =>
    rw [List.replicate_succ, List.cons_append]
    show digitsToNat ('0' :: (List.replicate n '0' ++ ds)) = digitsToNat ds
    rw [digitsToNat, List.foldl_cons]
    have h0 : 10 * 0 + digitVal '0' = 0 := by decide
    rw [h0]
    exact ih

theorem isDigit_not_ws {c : Char} (h : c.isDigit = true) :
    (decide (c = ' ') || decide (c = '\t') || decide (c = '\n')
      || decide (c = '\x0d')) = false := by
  by_cases h1 : c = ' '
  · subst h1; exact absurd h (by decide)
  by_cases h2 : c = '\t'
  · subst h2; exact absurd h (by decide)
  by_cases h3 : c = '\n'
  · subst h3; exact absurd h (by decide)
  by_cases h4 : c = '\x0d'
  · subst h4; exact absurd h (by decide)
  simp [h1, h2, h3, h4]

theorem isDigit_ne_dash {c : Char} (h : c.isDigit = true) : ¬c = '-' :=
  fun hc => by subst hc; exact absurd h (by decide)

theorem splitDash_no_dash {l : List Char} (h : '-' ∉ l) : splitDash l = [l] := by
  induction l with
  | nil => rfl
  | cons c cs ih =>
    have hc : ¬c = '-' := fun hh => h (hh ▸ List.mem_cons_self _ _)
    rw [splitDash, if_neg hc, ih fun hm => h (List.mem_cons_of_mem _ hm)]

theorem splitDash_append (l r : List Char) (h : '-' ∉ l) :
    splitDash (l ++ '-' :: r) = l :: splitDash r := by
  induction l with
  | nil => simp [splitDash]
  | cons c cs ih =>
    have hc : ¬c = '-' := fun hh => h (hh ▸ List.mem_cons_self _ _)
    rw [List.cons_append, splitDash, if_neg hc,
      ih fun hm => h (List.mem_cons_of_mem _ hm)]

theorem parseIntNat_all_digits (s : String) (hne : s.data ≠ [])
    (hd : ∀ c ∈ s.data, c.isDigit = true) :
    parseIntNat s = some (digitsToNat s.data) := by
  rw [parseIntNat]
  have h1 : s.data.dropWhile
      (fun c => decide (c = ' ') || decide (c = '\t') || decide (c = '\n')
        || decide (c = '\x0d')) = s.data :=
    dropWhile_of_forall_false fun c hc => isDigit_not_ws (hd c hc)
  simp only [h1, takeWhile_of_forall_true hd]
  rw [if_neg (by simpa [List.isEmpty_iff] using hne)]

theorem bucketLabel_wf (y m : String) (n : ℕ) (h1 : 1 ≤ n) (h2 : n ≤ 12)
    (hne : m.data ≠ []) (hdig : ∀ c ∈ m.data, c.isDigit = true)
    (hval : digitsToNat m.data = n) (hy : '-' ∉ y.data) :
    bucketLabel (y ++ "-" ++ padStart2 m) = monthAbbrevSpec n ++ " " ++ y := by
  have hpadData : (padStart2 m).data
      = List.replicate (2 - m.length) '0' ++ m.data := by
    simp [padStart2]
  have hpadDig : ∀ c ∈ List.replicate (2 - m.length) '0' ++ m.data,
      c.isDigit = true := by
    intro c hc
    rcases List.mem_append.mp hc with hc | hc
    · rw [List.eq_of_mem_replicate hc]; decide
    · exact hdig c hc
  have hpadNe : List.replicate (2 - m.length) '0' ++ m.data ≠ [] := by
    intro habs
    exact hne (List.append_eq_nil.mp habs).2
  have hpadNd : '-' ∉ List.replicate (2 - m.length) '0' ++ m.data := by
    intro hc
    exact isDigit_ne_dash (hpadDig _ hc) rfl
  have hdata : (y ++ "-" ++ padStart2 m).data
      = y.data ++ '-' :: (List.replicate (2 - m.length) '0' ++ m.data) := by
    simp [hpadData]
  have hsplit : splitDash ((y ++ "-" ++ padStart2 m).data)
      = [y.data, List.replicate (2 - m.length) '0' ++ m.data] := by
    rw [hdata, splitDash_append _ _ hy, splitDash_no_dash hpadNd]
  have hyk : String.mk y.data = y := by
    cases y
    rfl
  have hparse : parseIntNat
      (String.mk (List.replicate (2 - m.length) '0' ++ m.data))
      = some n := by
    rw [parseIntNat_all_digits _ hpadNe hpadDig,
      digitsToNat_replicate_zeros, hval]
  have habbrev : MONTHS.getD (n - 1) "undefined" = monthAbbrevSpec n := by
    interval_cases n <;> rfl
  simp only [bucketLabel, hsplit, List.getD_cons_zero, List.getD_cons_succ,
    hyk, hparse, habbrev]

/-- C4: the monthly aggregation groups the filtered records by the key
interpolating the year, a dash, and the month zero-padded to two digits;
each emitted bucket holds exactly the retail sum, warehouse sum and
record count of the rows with its key; the buckets are emitted sorted
ascending by the lexicographic order of their keys; and each bucket is
labelled with the month abbreviation of its month index (1 to "Jan"
through 12 to "Dec") followed by the year. -/
theorem monthly_aggregation_grouping (rows : List Row) :
    ((monthlySorted rows).map Prod.fst).Sorted (· ≤ ·)
    ∧ (∀ (k : String) (a : Agg), (k, a) ∈ monthlySorted rows ↔
        ((∃ r ∈ rows, monthKey r = k) ∧ a = groupSpec rows k))
    ∧ monthlyLabels rows = (monthlySorted rows).map (fun p => bucketLabel p.1)
    ∧ monthlyRetail rows = (monthlySorted rows).map (fun p => p.2.retail)
    ∧ monthlyWarehouse rows = (monthlySorted rows).map (fun p => p.2.warehouse)
    ∧ (∀ row : Row, monthKey row
        = jsToString row.year ++ "-" ++ padStart2 (row.month.getD ""))
    ∧ (∀ (y m : String) (n : ℕ), 1 ≤ n → n ≤ 12 → m.data ≠ [] →
        (∀ c ∈ m.data, c.isDigit = true) → digitsToNat m.data = n →
        '-' ∉ y.data →
        bucketLabel (y ++ "-" ++ padStart2 m) = monthAbbrevSpec n ++ " " ++ y) := by
  refine ⟨?_, monthlySorted_mem_iff rows, rfl, rfl, rfl, fun row => rfl,
    fun y m n h1 h2 hne hdig hval hy =>
      bucketLabel_wf y m n h1 h2 hne hdig hval hy⟩
  exact List.pairwise_map.mpr (List.sorted_insertionSort _ _)

/-- Witness for the monthly-aggregation claim: the label of the concrete
well-formed key built from year "2020" and month "1" is "Jan 2020". -/
theorem monthly_aggregation_grouping_witness :
    bucketLabel ("2020" ++ "-" ++ padStart2 "1")
      = monthAbbrevSpec 1 ++ " " ++ "2020" :=
  (monthly_aggregation_grouping []).2.2.2.2.2.2 "2020" "1" 1 (by decide)
    (by decide) (by decide) (by decide) (by decide) (by decide)
